import Mathlib

/-!
# Verification of the RK3588 thermal log analyzer

A shallow embedding of `thermal_plotter.py` (loader, cooling-column
classifier, throttle analyzer and the summary percentage computations),
together with theorems settling the specification's claims about it.

Modelling conventions:
* A table cell is `Option ℚ`: `some q` is a numeric value, `none` is a
  missing / non-numeric entry (what pandas turns into NaN under
  `pd.to_numeric(..., errors='coerce')`).  Thus `dropna` is `List.filterMap id`
  and `fillna(0)` is `List.map (Option.getD · 0)`.
* A data frame is its row count together with the ordered list of named
  columns.
* Floating point arithmetic is modelled by exact rational arithmetic.
-/

/-- A table cell after numeric coercion: `none` models NaN / missing. -/
abbrev Cell := Option ℚ

/-- A loaded table: the row count (`len(df)`) and the ordered columns. -/
structure DF where
  nrows : Nat
  cols : List (String × List Cell)
deriving DecidableEq

/-- Column access `df[name]`: the first column named `name`, if any. -/
def lookupCol (df : DF) (name : String) : Option (List Cell) :=
  (df.cols.find? (fun p => p.1 == name)).map (fun p => p.2)

/-- The per-core throttle record built by `detect_throttling`. -/
structure ThrottleInfo where
  max_mhz : ℚ
  min_mhz : ℚ
  init_mhz : ℚ
  drop_pct : ℚ
  throttled_by_freq : Bool
  throttled_by_cooling : Bool
  throttled : Bool
deriving DecidableEq, Repr

/-- `mean` of a list of rationals (pandas `Series.mean` over the values). -/
def listMean (l : List ℚ) : ℚ := l.sum / (l.length : ℚ)

/-- Body of the frequency loop of `detect_throttling` for one core `c`:
coerce `cpu{c}_freq_mhz` to numeric, drop missing, and if nonempty build the
record from max, min, mean of the first 10 samples and the 5% drop rule. -/
def freqRecord (df : DF) (c : Nat) : Option ThrottleInfo :=
  match lookupCol df ("cpu" ++ toString c ++ "_freq_mhz") with
  | none => none
  | some colVals =>
    match colVals.filterMap id with
    | [] => none
    | f :: fs =>
      let max_f := fs.foldl max f
      let min_f := fs.foldl min f
      let init_f := listMean ((f :: fs).take 10)
      let dp := if 0 < init_f then (1 - min_f / init_f) * 100 else 0
      some {
        max_mhz := max_f, min_mhz := min_f, init_mhz := init_f, drop_pct := dp,
        throttled_by_freq := decide (5 < dp),
        throttled_by_cooling := false,
        throttled := decide (5 < dp) }

/-- Metadata for one `cool{N}_{type}_cur` column (`get_cooling_cols` entry). -/
structure CoolingMeta where
  col : String
  idx : Nat
  type : String
deriving DecidableEq, Repr

/-- Value of a run of decimal digit characters. -/
def digitsToNat (ds : List Char) : Nat :=
  ds.foldl (fun n c => n * 10 + (c.toNat - 48)) 0

/-- Match a column name against the pattern `cool(\d+)_(.+)_cur` anchored at
both ends, returning the device index and the type string on success (the
greedy digit run must be followed by `_`, and the type group `(.+)` is the
nonempty remainder up to the final `_cur`). -/
def parseCoolingCol (name : String) : Option (Nat × String) :=
  match name.toList with
  | 'c' :: 'o' :: 'o' :: 'l' :: rest =>
    let digits := rest.takeWhile Char.isDigit
    if digits.isEmpty then none
    else
      match rest.drop digits.length with
      | '_' :: mid =>
        if mid.drop (mid.length - 4) = ['_', 'c', 'u', 'r'] && decide (4 < mid.length) then
          some (digitsToNat digits, String.mk (mid.take (mid.length - 4)))
        else none
      | _ => none
  | _ => none

/-- `get_cooling_cols`: parse every column name and sort by device index. -/
def get_cooling_cols (df : DF) : List CoolingMeta :=
  (df.cols.filterMap (fun p =>
    (parseCoolingCol p.1).map (fun it => CoolingMeta.mk p.1 it.1 it.2))).mergeSort
    (fun a b => a.idx ≤ b.idx)

/-- `pat in s` for strings (Python substring containment). -/
def strContains (s pat : String) : Bool :=
  s.toList.tails.any (fun t => pat.toList.isPrefixOf t)

/-- Python `str.lower` (ASCII case folding, character by character). -/
def strToLower (s : String) : String :=
  String.mk (s.toList.map Char.toLower)

/-- The cluster mapping of `detect_throttling`: lowercase the cooling type
and test the `cpufreq_{0,1,2}` substrings in order; default is all 8 cores. -/
def affectedCores (t : String) : List Nat :=
  let tl := strToLower t
  if strContains tl "cpufreq_0" || strContains tl "cpufreq-0" then [0, 1, 2, 3]
  else if strContains tl "cpufreq_1" || strContains tl "cpufreq-1" then [4, 5]
  else if strContains tl "cpufreq_2" || strContains tl "cpufreq-2" then [6, 7]
  else [0, 1, 2, 3, 4, 5, 6, 7]

/-- A cooling column coerced to numeric with missing values as 0
(`pd.to_numeric(df[col], errors='coerce').fillna(0)`). -/
def coolingVals (df : DF) (meta : CoolingMeta) : List ℚ :=
  ((lookupCol df meta.col).getD []).map (fun o => o.getD 0)

/-- Marking fields set in the cooling phase of `detect_throttling`. -/
def setCoolingFlags (i : ThrottleInfo) : ThrottleInfo :=
  { i with throttled_by_cooling := true, throttled := true }

/-- One iteration of the cooling loop of `detect_throttling`: if the device
column has a sample above 0, set the cooling flags of every affected core
that already has a record. -/
def applyCooling (df : DF) (res : Nat → Option ThrottleInfo)
    (meta : CoolingMeta) : Nat → Option ThrottleInfo :=
  if (coolingVals df meta).countP (fun v => decide (0 < v)) = 0 then res
  else
    let affected := affectedCores meta.type
    fun c => if c ∈ affected then (res c).map setCoolingFlags else res c

/-- The frequency-based phase of `detect_throttling` (the `for c in range(8)`
loop); cores outside 0..7 are never entered into the mapping. -/
def baseResults (df : DF) : Nat → Option ThrottleInfo :=
  fun c => if c < 8 then freqRecord df c else none

/-- `detect_throttling`: frequency phase followed by the cooling phase over
all discovered cooling columns.  `none` models absence from the dict. -/
def detect_throttling (df : DF) : Nat → Option ThrottleInfo :=
  (get_cooling_cols df).foldl (applyCooling df) (baseResults df)

/-- The valid (numeric) samples of core `c`'s frequency column; `[]` when the
column is absent or has no numeric entry. -/
def validSamples (df : DF) (c : Nat) : List ℚ :=
  ((lookupCol df ("cpu" ++ toString c ++ "_freq_mhz")).getD []).filterMap id

/-- Python `str.replace` restricted to a nonempty pattern: replace the
leftmost occurrence, continue after the replacement. -/
def replaceAllAux (p : Char) (ps : List Char) (rep : List Char) :
    List Char → List Char
  | [] => []
  | c :: rest =>
    if (p :: ps).isPrefixOf (c :: rest) then
      rep ++ replaceAllAux p ps rep (rest.drop ps.length)
    else
      c :: replaceAllAux p ps rep rest
termination_by l => l.length
decreasing_by
  · simp only [List.length_cons, List.length_drop]
    omega
  · simp only [List.length_cons]
    omega

/-- Python `s.replace(pat, rep)` (pattern nonempty in every use below). -/
def pyReplace (s pat rep : String) : String :=
  match pat.toList with
  | [] => s
  | p :: ps => String.mk (replaceAllAux p ps rep.toList s.toList)

/-- Whether a column is a temperature column:
`c.startswith('temp_') and c.endswith('_C')`. -/
def isTempCol (col : String) : Bool :=
  "temp_".toList.isPrefixOf col.toList && "_C".toList.isSuffixOf col.toList

/-- Label used by `print_summary` for a temperature column:
`col.replace('temp_','').replace('_C','')`. -/
def summaryTempLabel (col : String) : String :=
  pyReplace (pyReplace col "temp_" "") "_C" ""

/-- Label used by `plot_report` for a temperature column:
`col.replace('temp_','').replace('_C','').replace('_',' ')`. -/
def plotTempLabel (col : String) : String :=
  pyReplace (pyReplace (pyReplace col "temp_" "") "_C" "") "_" " "

/-- The label the specification describes: the `temp_` and `_C` affixes
stripped, underscores turned to spaces.  Stated from the spec's words, to be
compared with the labels computed by the code. -/
def specTempLabel (col : String) : String :=
  let mid := (col.toList.drop 5).take (col.toList.length - 7)
  String.mk (mid.map (fun c => if c = '_' then ' ' else c))

/-- Per-device throttle-time percentage of `print_summary` / `plot_report`:
`(vals > 0).sum() / len(df) * 100`. -/
def throttle_time_pct (df : DF) (meta : CoolingMeta) : ℚ :=
  (((coolingVals df meta).countP (fun v => decide (0 < v)) : ℚ) /
    (df.nrows : ℚ)) * 100

/-- The `any_throttle` column coerced with missing as 0. -/
def anyThrottleVals (df : DF) : List ℚ :=
  ((lookupCol df "any_throttle").getD []).map (fun o => o.getD 0)

/-- Any-throttle duration percentage: `(any_t > 0).sum() / len(df) * 100`. -/
def any_throttle_pct (df : DF) : ℚ :=
  (((anyThrottleVals df).countP (fun v => decide (0 < v)) : ℚ) /
    (df.nrows : ℚ)) * 100

/-- Remove the part of a line from the first `#` on (pandas `comment='#'`:
a line starting with `#` is dropped entirely, a trailing comment is cut). -/
def stripComment (l : String) : String :=
  String.mk (l.toList.takeWhile (fun c => c ≠ '#'))

/-- Comment and blank-line removal performed by `pd.read_csv(..., comment='#')`
(with its default `skip_blank_lines=True`). -/
def preprocess (lines : List String) : List String :=
  (lines.map stripComment).filter (fun l => l ≠ "")

/-- Unsigned decimal literal: digits with an optional fractional part. -/
def parseUnsigned (rest : List Char) : Option ℚ :=
  let intPart := rest.takeWhile Char.isDigit
  match rest.drop intPart.length with
  | [] =>
    if intPart.isEmpty then none
    else some (digitsToNat intPart : ℚ)
  | '.' :: frac =>
    if frac.all Char.isDigit && !(intPart.isEmpty && frac.isEmpty) then
      some ((digitsToNat intPart : ℚ) +
        (digitsToNat frac : ℚ) / ((10 : ℚ) ^ frac.length))
    else none
  | _ => none

/-- Decimal literal parser modelling the numeric coercion of a CSV cell:
optional sign, digits, optional fractional part; anything else is `none`. -/
def parseRat (s : String) : Option ℚ :=
  match s.toList with
  | '-' :: r => (parseUnsigned r).map (fun q => -q)
  | '+' :: r => parseUnsigned r
  | r => parseUnsigned r

/-- Split a character list at every occurrence of `sep` (comma splitting of
a CSV line; the separators are dropped, empty fields are kept). -/
def splitOnCharAux (sep : Char) : List Char → List Char → List (List Char)
  | [], acc => [acc.reverse]
  | c :: rest, acc =>
    if c = sep then acc.reverse :: splitOnCharAux sep rest []
    else splitOnCharAux sep rest (c :: acc)

/-- Split a line into its comma-separated fields. -/
def splitComma (l : String) : List String :=
  (splitOnCharAux ',' l.toList []).map String.mk

/-- Build the table from the comment-stripped lines: first line is the
header, remaining lines are rows; cells are numeric-coerced. -/
def parseTable (dataLines : List String) : DF :=
  match dataLines with
  | [] => ⟨0, []⟩
  | header :: rows =>
    let names := splitComma header
    let cells := rows.map splitComma
    ⟨rows.length,
      names.enum.map (fun p =>
        (p.2, cells.map (fun row => (row.get? p.1).bind parseRat)))⟩

/-- `df[name] = vals`: overwrite the column in place if present, else append
at the end (pandas column assignment). -/
def setCol (cols : List (String × List Cell)) (name : String)
    (vals : List Cell) : List (String × List Cell) :=
  if cols.any (fun p => p.1 == name) then
    cols.map (fun p => if p.1 == name then (name, vals) else p)
  else cols ++ [(name, vals)]

/-- `load_csv`: read the file (`none` models a missing/unreadable file),
parse it skipping comments, and add `elapsed_min = elapsed_sec / 60`;
a missing `elapsed_sec` column is a fatal `KeyError`. -/
def load_csv (file : Option (List String)) : Except String DF :=
  match file with
  | none => Except.error "read error"
  | some lines =>
    let base := parseTable (preprocess lines)
    match lookupCol base "elapsed_sec" with
    | none => Except.error "KeyError: elapsed_sec"
    | some esec =>
      Except.ok ⟨base.nrows,
        setCol base.cols "elapsed_min" (esec.map (fun o => o.map (fun v => v / 60)))⟩

/-- The guard of the cooling loop: some sample of the device column, with
missing values as 0, is strictly positive. -/
def coolingTriggered (df : DF) (meta : CoolingMeta) : Prop :=
  ∃ v ∈ coolingVals df meta, 0 < v

/-! ## Concrete tables and records used by the witnesses -/

/-- A small concrete log table: CPU 0 throttles by frequency drop, CPU 4 is
flagged by the `cpufreq_1` cooling device, CPU 2 has no column. -/
def dfW : DF :=
  ⟨3, [("elapsed_sec", [some 0, some 60, some 120]),
       ("cpu0_freq_mhz", [some 1800, some 1800, some 1000]),
       ("cpu4_freq_mhz", [some 2200, none, some 2300]),
       ("cool0_thermal_cpufreq_1_cur", [some 0, some 1, some 0]),
       ("any_throttle", [some 0, some 1, some 0])]⟩

/-- The cooling metadata of `dfW`'s single cooling column. -/
def metaW : CoolingMeta := ⟨"cool0_thermal_cpufreq_1_cur", 0, "thermal_cpufreq_1"⟩

/-- The analyzer's record for core 0 of `dfW`. -/
def infoW0 : ThrottleInfo := ⟨1800, 1000, 4600 / 3, 800 / 23, true, false, true⟩

/-- The analyzer's record for core 4 of `dfW` (after the cooling phase). -/
def infoW4 : ThrottleInfo := ⟨2300, 2200, 2250, 20 / 9, false, true, true⟩

/-- The record for core 4 of `dfW` before the cooling phase. -/
def infoW4base : ThrottleInfo := ⟨2300, 2200, 2250, 20 / 9, false, false, false⟩

/-- The table of the spec's end-to-end scenario 1. -/
def df5 : DF :=
  ⟨3, [("elapsed_sec", [some 0, some 60, some 120]),
       ("cpu0_freq_mhz", [some 1800, some 1800, some 1000])]⟩

/-- A table whose `cpu3_freq_mhz` column has no valid numeric sample. -/
def df6 : DF :=
  ⟨2, [("elapsed_sec", [some 0, some 60]),
       ("cpu3_freq_mhz", [none, none])]⟩

/-! ## Helper lemmas: folded min / max and the mean -/

lemma foldl_min_le_start (l : List ℚ) : ∀ a : ℚ, l.foldl min a ≤ a := by
  induction l with
  | nil => intro a; simp
  | cons x xs ih =>
    intro a
    simpa using le_trans (ih (min a x)) (min_le_left a x)

lemma foldl_min_le_mem (l : List ℚ) : ∀ a : ℚ, ∀ x ∈ l, l.foldl min a ≤ x := by
  induction l with
  | nil => simp
  | cons y ys ih =>
    intro a x hx
    rcases List.mem_cons.mp hx with h | h
    · subst h
      simpa using le_trans (foldl_min_le_start ys (min a x)) (min_le_right a x)
    · simpa using ih (min a y) x h

lemma foldl_min_self_or_mem (l : List ℚ) :
    ∀ a : ℚ, l.foldl min a = a ∨ l.foldl min a ∈ l := by
  induction l with
  | nil => intro a; left; rfl
  | cons y ys ih =>
    intro a
    rcases ih (min a y) with h | h
    · rcases min_choice a y with h1 | h1
      · left; simpa [h1] using h
      · right
        simp only [List.foldl_cons, List.mem_cons]
        left
        rw [h, h1]
    · right
      simp only [List.foldl_cons, List.mem_cons]
      exact Or.inr h

lemma le_foldl_max_start (l : List ℚ) : ∀ a : ℚ, a ≤ l.foldl max a := by
  induction l with
  | nil => intro a; simp
  | cons x xs ih =>
    intro a
    simpa using le_trans (le_max_left a x) (ih (max a x))

lemma le_foldl_max_mem (l : List ℚ) : ∀ a : ℚ, ∀ x ∈ l, x ≤ l.foldl max a := by
  induction l with
  | nil => simp
  | cons y ys ih =>
    intro a x hx
    rcases List.mem_cons.mp hx with h | h
    · subst h
      simpa using le_trans (le_max_right a x) (le_foldl_max_start ys (max a x))
    · simpa using ih (max a y) x h

lemma foldl_max_self_or_mem (l : List ℚ) :
    ∀ a : ℚ, l.foldl max a = a ∨ l.foldl max a ∈ l := by
  induction l with
  | nil => intro a; left; rfl
  | cons y ys ih =>
    intro a
    rcases ih (max a y) with h | h
    · rcases max_choice a y with h1 | h1
      · left; simpa [h1] using h
      · right
        simp only [List.foldl_cons, List.mem_cons]
        left
        rw [h, h1]
    · right
      simp only [List.foldl_cons, List.mem_cons]
      exact Or.inr h

lemma le_listMean {l : List ℚ} (hne : l ≠ []) {a : ℚ}
    (h : ∀ x ∈ l, a ≤ x) : a ≤ listMean l := by
  have hlen : 0 < (l.length : ℚ) := by
    exact_mod_cast List.length_pos.mpr hne
  have hs := List.card_nsmul_le_sum l a h
  rw [nsmul_eq_mul] at hs
  rw [listMean, le_div_iff₀ hlen]
  linarith

lemma listMean_le {l : List ℚ} (hne : l ≠ []) {b : ℚ}
    (h : ∀ x ∈ l, x ≤ b) : listMean l ≤ b := by
  have hlen : 0 < (l.length : ℚ) := by
    exact_mod_cast List.length_pos.mpr hne
  have hs := List.sum_le_card_nsmul l b h
  rw [nsmul_eq_mul] at hs
  rw [listMean, div_le_iff₀ hlen]
  linarith

/-! ## Helper lemmas: the frequency phase -/

lemma freqRecord_cons (df : DF) (c : Nat) (f : ℚ) (fs : List ℚ)
    (h : validSamples df c = f :: fs) :
    freqRecord df c = some {
      max_mhz := fs.foldl max f, min_mhz := fs.foldl min f,
      init_mhz := listMean ((f :: fs).take 10),
      drop_pct := if 0 < listMean ((f :: fs).take 10) then
          (1 - (fs.foldl min f) / listMean ((f :: fs).take 10)) * 100 else 0,
      throttled_by_freq := decide (5 < (if 0 < listMean ((f :: fs).take 10) then
          (1 - (fs.foldl min f) / listMean ((f :: fs).take 10)) * 100 else 0)),
      throttled_by_cooling := false,
      throttled := decide (5 < (if 0 < listMean ((f :: fs).take 10) then
          (1 - (fs.foldl min f) / listMean ((f :: fs).take 10)) * 100 else 0)) } := by
  unfold validSamples at h
  cases hl : lookupCol df ("cpu" ++ toString c ++ "_freq_mhz") with
  | none => rw [hl] at h; simp at h
  | some colVals =>
    rw [hl] at h
    simp only [Option.getD_some] at h
    simp only [freqRecord, hl, h]

lemma freqRecord_nil (df : DF) (c : Nat) (h : validSamples df c = []) :
    freqRecord df c = none := by
  unfold validSamples at h
  cases hl : lookupCol df ("cpu" ++ toString c ++ "_freq_mhz") with
  | none => simp only [freqRecord, hl]
  | some colVals =>
    rw [hl] at h
    simp only [Option.getD_some] at h
    simp only [freqRecord, hl, h]

/-! ## Helper lemmas: the cooling phase -/


lemma coolingTriggered_iff_countP (df : DF) (meta : CoolingMeta) :
    coolingTriggered df meta ↔
      (coolingVals df meta).countP (fun v => decide (0 < v)) ≠ 0 := by
  rw [Ne, List.countP_eq_zero]
  simp only [coolingTriggered, decide_eq_true_eq, not_forall]
  constructor
  · rintro ⟨v, hv, hpos⟩
    exact ⟨v, hv, not_not_intro hpos⟩
  · rintro ⟨v, hv, hpos⟩
    exact ⟨v, hv, not_not.mp hpos⟩

lemma applyCooling_at (df : DF) (meta : CoolingMeta)
    (res : Nat → Option ThrottleInfo) (c : Nat) :
    (applyCooling df res meta c = none ↔ res c = none) ∧
    ∀ i', applyCooling df res meta c = some i' →
      ∃ i, res c = some i ∧
        i'.max_mhz = i.max_mhz ∧ i'.min_mhz = i.min_mhz ∧
        i'.init_mhz = i.init_mhz ∧ i'.drop_pct = i.drop_pct ∧
        i'.throttled_by_freq = i.throttled_by_freq ∧
        (i'.throttled_by_cooling = true ↔
          (i.throttled_by_cooling = true ∨
            (c ∈ affectedCores meta.type ∧ coolingTriggered df meta))) ∧
        (i'.throttled = true ↔
          (i.throttled = true ∨
            (c ∈ affectedCores meta.type ∧ coolingTriggered df meta))) := by
  by_cases hz : (coolingVals df meta).countP (fun v => decide (0 < v)) = 0
  · have hnt : ¬ coolingTriggered df meta := by
      rw [coolingTriggered_iff_countP]
      exact not_not_intro hz
    have heq : applyCooling df res meta c = res c := by
      simp only [applyCooling, if_pos hz]
    rw [heq]
    refine ⟨Iff.rfl, fun i' hi' => ⟨i', hi', rfl, rfl, rfl, rfl, rfl, ?_, ?_⟩⟩
    · constructor
      · exact fun h => Or.inl h
      · rintro (h | ⟨_, ht⟩)
        · exact h
        · exact absurd ht hnt
    · constructor
      · exact fun h => Or.inl h
      · rintro (h | ⟨_, ht⟩)
        · exact h
        · exact absurd ht hnt
  · have ht : coolingTriggered df meta := (coolingTriggered_iff_countP df meta).mpr hz
    by_cases hm : c ∈ affectedCores meta.type
    · have heq : applyCooling df res meta c = (res c).map setCoolingFlags := by
        simp only [applyCooling, if_neg hz]
        simp [hm]
      rw [heq]
      constructor
      · exact Option.map_eq_none'
      · intro i' hi'
        rcases Option.map_eq_some'.mp hi' with ⟨i, hi, hset⟩
        refine ⟨i, hi, ?_⟩
        subst hset
        simp [setCoolingFlags, hm, ht]
    · have heq : applyCooling df res meta c = res c := by
        simp only [applyCooling, if_neg hz]
        simp [hm]
      rw [heq]
      refine ⟨Iff.rfl, fun i' hi' => ⟨i', hi', rfl, rfl, rfl, rfl, rfl, ?_, ?_⟩⟩
      · constructor
        · exact fun h => Or.inl h
        · rintro (h | ⟨hmem, _⟩)
          · exact h
          · exact absurd hmem hm
      · constructor
        · exact fun h => Or.inl h
        · rintro (h | ⟨hmem, _⟩)
          · exact h
          · exact absurd hmem hm

lemma foldl_applyCooling_at (df : DF) (metas : List CoolingMeta) :
    ∀ (res : Nat → Option ThrottleInfo) (c : Nat),
    (metas.foldl (applyCooling df) res c = none ↔ res c = none) ∧
    ∀ i', metas.foldl (applyCooling df) res c = some i' →
      ∃ i, res c = some i ∧
        i'.max_mhz = i.max_mhz ∧ i'.min_mhz = i.min_mhz ∧
        i'.init_mhz = i.init_mhz ∧ i'.drop_pct = i.drop_pct ∧
        i'.throttled_by_freq = i.throttled_by_freq ∧
        (i'.throttled_by_cooling = true ↔
          (i.throttled_by_cooling = true ∨
            ∃ m ∈ metas, c ∈ affectedCores m.type ∧ coolingTriggered df m)) ∧
        (i'.throttled = true ↔
          (i.throttled = true ∨
            ∃ m ∈ metas, c ∈ affectedCores m.type ∧ coolingTriggered df m)) := by
  induction metas with
  | nil =>
    intro res c
    refine ⟨Iff.rfl, fun i' hi' => ⟨i', hi', rfl, rfl, rfl, rfl, rfl, ?_, ?_⟩⟩ <;>
      simp
  | cons m ms ih =>
    intro res c
    simp only [List.foldl_cons]
    have step := applyCooling_at df m res c
    have tail := ih (applyCooling df res m) c
    constructor
    · rw [tail.1, step.1]
    · intro i'' hi''
      rcases tail.2 i'' hi'' with ⟨i', hi', e1, e2, e3, e4, e5, f1, f2⟩
      rcases step.2 i' hi' with ⟨i, hi, g1, g2, g3, g4, g5, h1, h2⟩
      refine ⟨i, hi, e1.trans g1, e2.trans g2, e3.trans g3, e4.trans g4,
        e5.trans g5, ?_, ?_⟩
      · rw [List.exists_mem_cons_iff, f1, h1]
        exact or_assoc
      · rw [List.exists_mem_cons_iff, f2, h2]
        exact or_assoc

lemma freqRecord_fields (df : DF) (c : Nat) (i : ThrottleInfo)
    (h : freqRecord df c = some i) :
    i.throttled_by_cooling = false ∧ i.throttled = i.throttled_by_freq := by
  unfold freqRecord at h
  split at h
  · exact absurd h (by simp)
  · split at h
    · exact absurd h (by simp)
    · have := Option.some.inj h
      subst this
      exact ⟨rfl, rfl⟩

lemma baseResults_fields (df : DF) (c : Nat) (i : ThrottleInfo)
    (h : baseResults df c = some i) :
    i.throttled_by_cooling = false ∧ i.throttled = i.throttled_by_freq := by
  unfold baseResults at h
  split at h
  · exact freqRecord_fields df c i h
  · exact absurd h (by simp)

lemma detect_throttling_none_iff (df : DF) (c : Nat) :
    detect_throttling df c = none ↔ baseResults df c = none :=
  (foldl_applyCooling_at df (get_cooling_cols df) (baseResults df) c).1

lemma detect_throttling_some_elim (df : DF) (c : Nat) (info : ThrottleInfo)
    (h : detect_throttling df c = some info) :
    ∃ i, baseResults df c = some i ∧
      info.max_mhz = i.max_mhz ∧ info.min_mhz = i.min_mhz ∧
      info.init_mhz = i.init_mhz ∧ info.drop_pct = i.drop_pct ∧
      info.throttled_by_freq = i.throttled_by_freq ∧
      (info.throttled_by_cooling = true ↔
        (i.throttled_by_cooling = true ∨
          ∃ m ∈ get_cooling_cols df, c ∈ affectedCores m.type ∧
            coolingTriggered df m)) ∧
      (info.throttled = true ↔
        (i.throttled = true ∨
          ∃ m ∈ get_cooling_cols df, c ∈ affectedCores m.type ∧
            coolingTriggered df m)) :=
  (foldl_applyCooling_at df (get_cooling_cols df) (baseResults df) c).2 info h

lemma foldl_min_le_all (f : ℚ) (fs : List ℚ) :
    ∀ x ∈ f :: fs, fs.foldl min f ≤ x := by
  intro x hx
  rcases List.mem_cons.mp hx with h | h
  · exact le_of_le_of_eq (foldl_min_le_start fs f) h.symm
  · exact foldl_min_le_mem fs f x h

lemma all_le_foldl_max (f : ℚ) (fs : List ℚ) :
    ∀ x ∈ f :: fs, x ≤ fs.foldl max f := by
  intro x hx
  rcases List.mem_cons.mp hx with h | h
  · exact le_of_eq_of_le h (le_foldl_max_start fs f)
  · exact le_foldl_max_mem fs f x h

/-! ## Claim C1 -/

/-- C1: for every core 0..7 whose frequency column is present with at least
one valid numeric sample, the analyzer's record has `init` equal to the mean
of the first 10 valid samples, `min`/`max` the least/greatest valid sample,
`drop_pct = (1 - min/init) * 100` when `init > 0` and `0` otherwise, and
`throttled_by_freq` true exactly when `drop_pct > 5`. -/
theorem detect_throttling_freq_spec (df : DF) (c : Nat) (hc : c < 8)
    (hne : validSamples df c ≠ []) :
    ∃ info, detect_throttling df c = some info ∧
      info.init_mhz = listMean ((validSamples df c).take 10) ∧
      info.min_mhz ∈ validSamples df c ∧
      (∀ x ∈ validSamples df c, info.min_mhz ≤ x) ∧
      info.max_mhz ∈ validSamples df c ∧
      (∀ x ∈ validSamples df c, x ≤ info.max_mhz) ∧
      info.drop_pct = (if 0 < info.init_mhz then
        (1 - info.min_mhz / info.init_mhz) * 100 else 0) ∧
      (info.throttled_by_freq = true ↔ 5 < info.drop_pct) := by
  cases hv : validSamples df c with
  | nil => exact absurd hv hne
  | cons f fs =>
    have hfr := freqRecord_cons df c f fs hv
    have hb : baseResults df c = freqRecord df c := by
      unfold baseResults
      rw [if_pos hc]
    cases hd : detect_throttling df c with
    | none =>
      have hn := (detect_throttling_none_iff df c).mp hd
      rw [hb, hfr] at hn
      exact absurd hn (by simp)
    | some info =>
      rcases detect_throttling_some_elim df c info hd with
        ⟨i, hi, e1, e2, e3, e4, e5, _, _⟩
      rw [hb, hfr] at hi
      have hiR := Option.some.inj hi
      subst hiR
      have emax : info.max_mhz = fs.foldl max f := e1
      have emin : info.min_mhz = fs.foldl min f := e2
      have einit : info.init_mhz = listMean ((f :: fs).take 10) := e3
      have edp : info.drop_pct = (if 0 < listMean ((f :: fs).take 10) then
          (1 - (fs.foldl min f) / listMean ((f :: fs).take 10)) * 100 else 0) := e4
      have etf : info.throttled_by_freq =
          decide (5 < (if 0 < listMean ((f :: fs).take 10) then
            (1 - (fs.foldl min f) / listMean ((f :: fs).take 10)) * 100 else 0)) := e5
      refine ⟨info, rfl, ?_, ?_, ?_, ?_, ?_, ?_, ?_⟩
      · exact einit
      · rw [emin]
        rcases foldl_min_self_or_mem fs f with h | h
        · rw [h]
          exact List.mem_cons_self f fs
        · exact List.mem_cons_of_mem f h
      · rw [emin]
        exact foldl_min_le_all f fs
      · rw [emax]
        rcases foldl_max_self_or_mem fs f with h | h
        · rw [h]
          exact List.mem_cons_self f fs
        · exact List.mem_cons_of_mem f h
      · rw [emax]
        exact all_le_foldl_max f fs
      · rw [edp, emin, einit]
      · rw [etf, edp]
        exact decide_eq_true_iff

/-! ## Concrete evaluations used by the witnesses -/

lemma applyCooling_active (df : DF) (meta : CoolingMeta)
    (res : Nat → Option ThrottleInfo) (c : Nat)
    (h : (coolingVals df meta).countP (fun v => decide (0 < v)) ≠ 0) :
    applyCooling df res meta c =
      if c ∈ affectedCores meta.type then (res c).map setCoolingFlags
      else res c := by
  unfold applyCooling
  rw [if_neg h]

lemma get_cooling_cols_dfW : get_cooling_cols dfW = [metaW] := by
  have h : dfW.cols.filterMap (fun p =>
      (parseCoolingCol p.1).map (fun it => CoolingMeta.mk p.1 it.1 it.2)) =
      [metaW] := by decide
  unfold get_cooling_cols
  rw [h, List.mergeSort_singleton]

lemma countW : (coolingVals dfW metaW).countP (fun v => decide (0 < v)) ≠ 0 := by
  decide

lemma affW : affectedCores metaW.type = [4, 5] := by decide

lemma freqRecord_dfW0 : freqRecord dfW 0 = some infoW0 := by
  have hv : validSamples dfW 0 = [1800, 1800, 1000] := by decide
  rw [freqRecord_cons dfW 0 1800 [1800, 1000] hv]
  norm_num [infoW0, listMean, max_def, min_def, ThrottleInfo.mk.injEq]

lemma freqRecord_dfW4 : freqRecord dfW 4 = some infoW4base := by
  have hv : validSamples dfW 4 = [2200, 2300] := by decide
  rw [freqRecord_cons dfW 4 2200 [2300] hv]
  norm_num [infoW4base, listMean, max_def, min_def, ThrottleInfo.mk.injEq]

lemma baseResults_dfW0 : baseResults dfW 0 = some infoW0 := by
  simp only [baseResults]
  rw [if_pos (by norm_num : (0 : Nat) < 8)]
  exact freqRecord_dfW0

lemma baseResults_dfW4 : baseResults dfW 4 = some infoW4base := by
  simp only [baseResults]
  rw [if_pos (by norm_num : (4 : Nat) < 8)]
  exact freqRecord_dfW4

lemma detect_dfW (c : Nat) :
    detect_throttling dfW c =
      if c ∈ [4, 5] then (baseResults dfW c).map setCoolingFlags
      else baseResults dfW c := by
  unfold detect_throttling
  rw [get_cooling_cols_dfW]
  simp only [List.foldl_cons, List.foldl_nil]
  rw [applyCooling_active dfW metaW _ c countW, affW]

lemma detect_dfW0 : detect_throttling dfW 0 = some infoW0 := by
  rw [detect_dfW 0, if_neg (by decide : ¬ (0 : Nat) ∈ [4, 5]), baseResults_dfW0]

lemma applyCooling_dfW4 :
    applyCooling dfW (baseResults dfW) metaW 4 = some infoW4 := by
  rw [applyCooling_active dfW metaW _ 4 countW, affW,
    if_pos (by decide : (4 : Nat) ∈ [4, 5]), baseResults_dfW4]
  rfl

lemma detect_dfW4 : detect_throttling dfW 4 = some infoW4 := by
  rw [detect_dfW 4, if_pos (by decide : (4 : Nat) ∈ [4, 5]), baseResults_dfW4]
  rfl

/-- Witness for C1 at `dfW`, core 0. -/
theorem detect_throttling_freq_spec_witness :
    (0 : Nat) < 8 ∧ validSamples dfW 0 ≠ [] ∧
    (∃ info, detect_throttling dfW 0 = some info ∧
      info.init_mhz = listMean ((validSamples dfW 0).take 10) ∧
      info.min_mhz ∈ validSamples dfW 0 ∧
      (∀ x ∈ validSamples dfW 0, info.min_mhz ≤ x) ∧
      info.max_mhz ∈ validSamples dfW 0 ∧
      (∀ x ∈ validSamples dfW 0, x ≤ info.max_mhz) ∧
      info.drop_pct = (if 0 < info.init_mhz then
        (1 - info.min_mhz / info.init_mhz) * 100 else 0) ∧
      (info.throttled_by_freq = true ↔ 5 < info.drop_pct)) :=
  ⟨by norm_num, by decide, detect_throttling_freq_spec dfW 0 (by norm_num) (by decide)⟩

/-! ## Claim C2 -/

/-- C2: for every core with a record, `throttled_by_cooling` is true exactly
when some discovered cooling device affecting that core has a sample, with
missing treated as 0, that is strictly greater than 0. -/
theorem detect_throttling_cooling_iff (df : DF) (c : Nat) (info : ThrottleInfo)
    (h : detect_throttling df c = some info) :
    info.throttled_by_cooling = true ↔
      ∃ meta ∈ get_cooling_cols df, c ∈ affectedCores meta.type ∧
        ∃ v ∈ coolingVals df meta, 0 < v := by
  rcases detect_throttling_some_elim df c info h with
    ⟨i, hi, _, _, _, _, _, f1, _⟩
  have hb := (baseResults_fields df c i hi).1
  rw [f1, hb]
  simp [coolingTriggered]

/-- Witness for C2 at `dfW`, core 4. -/
theorem detect_throttling_cooling_iff_witness :
    detect_throttling dfW 4 = some infoW4 ∧
    (infoW4.throttled_by_cooling = true ↔
      ∃ meta ∈ get_cooling_cols dfW, 4 ∈ affectedCores meta.type ∧
        ∃ v ∈ coolingVals dfW meta, 0 < v) :=
  ⟨detect_dfW4, detect_throttling_cooling_iff dfW 4 infoW4 detect_dfW4⟩

/-! ## Claim C4 -/

/-- C4: every record satisfies `throttled = throttled_by_freq OR
throttled_by_cooling`; the cooling step only ever turns the flags on, never
off; a core with no valid frequency data is simply absent from the result. -/
theorem detect_throttling_or_invariant (df : DF) :
    (∀ c info, detect_throttling df c = some info →
      info.throttled = (info.throttled_by_freq || info.throttled_by_cooling)) ∧
    (∀ res meta c i i', res c = some i →
      applyCooling df res meta c = some i' →
      (i.throttled_by_cooling = true → i'.throttled_by_cooling = true) ∧
      (i.throttled = true → i'.throttled = true)) ∧
    (∀ c, validSamples df c = [] → detect_throttling df c = none) := by
  refine ⟨?_, ?_, ?_⟩
  · intro c info h
    rcases detect_throttling_some_elim df c info h with
      ⟨i, hi, _, _, _, _, e5, f1, f2⟩
    obtain ⟨hb1, hb2⟩ := baseResults_fields df c i hi
    rw [Bool.eq_iff_iff, Bool.or_eq_true, f2, f1, e5, hb2, hb1]
    simp
  · intro res meta c i i' h1 h2
    rcases (applyCooling_at df meta res c).2 i' h2 with
      ⟨i0, hi0, _, _, _, _, _, g1, g2⟩
    rw [h1] at hi0
    have hii : i = i0 := Option.some.inj hi0
    subst hii
    exact ⟨fun h => g1.mpr (Or.inl h), fun h => g2.mpr (Or.inl h)⟩
  · intro c hvs
    rw [detect_throttling_none_iff]
    unfold baseResults
    split
    · exact freqRecord_nil df c hvs
    · rfl

/-- Witness for C4 at `dfW`. -/
theorem detect_throttling_or_invariant_witness :
    detect_throttling dfW 0 = some infoW0 ∧
    infoW0.throttled = (infoW0.throttled_by_freq || infoW0.throttled_by_cooling) ∧
    baseResults dfW 4 = some infoW4base ∧
    applyCooling dfW (baseResults dfW) metaW 4 = some infoW4 ∧
    (infoW4base.throttled = true → infoW4.throttled = true) ∧
    validSamples dfW 2 = [] ∧
    detect_throttling dfW 2 = none :=
  ⟨detect_dfW0,
   (detect_throttling_or_invariant dfW).1 0 infoW0 detect_dfW0,
   baseResults_dfW4,
   applyCooling_dfW4,
   ((detect_throttling_or_invariant dfW).2.1 (baseResults dfW) metaW 4
     infoW4base infoW4 baseResults_dfW4 applyCooling_dfW4).2,
   by decide,
   (detect_throttling_or_invariant dfW).2.2 2 (by decide)⟩

/-! ## Claim C5 -/

/-- C5: on the table with `elapsed_sec = [0, 60, 120]` and
`cpu0_freq_mhz = [1800, 1800, 1000]`, core 0's record has
`init = mean(1800, 1800, 1000) = 4600/3` (≈ 1533.3), `min = 1000`,
`drop_pct = (1 - 1000/(4600/3)) * 100 = 800/23` (≈ 34.8), and
`throttled_by_freq = true`. -/
theorem detect_throttling_scenario1 :
    detect_throttling df5 0 = some ⟨1800, 1000, 4600 / 3, 800 / 23,
      true, false, true⟩ := by
  have hmetas : get_cooling_cols df5 = [] := by
    have h : df5.cols.filterMap (fun p =>
        (parseCoolingCol p.1).map (fun it => CoolingMeta.mk p.1 it.1 it.2)) =
        [] := by decide
    unfold get_cooling_cols
    rw [h, List.mergeSort_nil]
  unfold detect_throttling
  rw [hmetas]
  simp only [List.foldl_nil, baseResults]
  rw [if_pos (by norm_num : (0 : Nat) < 8)]
  have hv : validSamples df5 0 = [1800, 1800, 1000] := by decide
  rw [freqRecord_cons df5 0 1800 [1800, 1000] hv]
  norm_num [listMean, max_def, min_def, ThrottleInfo.mk.injEq]

/-! ## Claim C6 -/

/-- C6: a core whose frequency column is present but has no valid numeric
entry produces no record at all: the analyzer maps it to `none`. -/
theorem detect_throttling_empty_column (df : DF) (c : Nat) (vals : List Cell)
    (hcol : lookupCol df ("cpu" ++ toString c ++ "_freq_mhz") = some vals)
    (hempty : vals.filterMap id = []) :
    detect_throttling df c = none := by
  have hvs : validSamples df c = [] := by
    unfold validSamples
    rw [hcol]
    simpa using hempty
  rw [detect_throttling_none_iff]
  unfold baseResults
  split
  · exact freqRecord_nil df c hvs
  · rfl

/-- Witness for C6 at `df6`, core 3 (a column of no valid samples). -/
theorem detect_throttling_empty_column_witness :
    lookupCol df6 ("cpu" ++ toString 3 ++ "_freq_mhz") = some [none, none] ∧
    (([none, none] : List Cell).filterMap id = []) ∧
    detect_throttling df6 3 = none :=
  ⟨by decide, by decide,
   detect_throttling_empty_column df6 3 [none, none] (by decide) (by decide)⟩

/-! ## Claim C9 -/

/-- C9: in every record the initial frequency (mean of the first 10 valid
samples) lies between the minimum and maximum valid sample, and therefore
`drop_pct` is never negative. -/
theorem detect_throttling_bounds (df : DF) (c : Nat) (info : ThrottleInfo)
    (h : detect_throttling df c = some info) :
    info.min_mhz ≤ info.init_mhz ∧ info.init_mhz ≤ info.max_mhz ∧
    0 ≤ info.drop_pct := by
  rcases detect_throttling_some_elim df c info h with
    ⟨i, hi, e1, e2, e3, e4, _, _, _⟩
  unfold baseResults at hi
  split at hi
  · cases hv : validSamples df c with
    | nil =>
      rw [freqRecord_nil df c hv] at hi
      exact absurd hi (by simp)
    | cons f fs =>
      rw [freqRecord_cons df c f fs hv] at hi
      have hiR := Option.some.inj hi
      subst hiR
      have emax : info.max_mhz = fs.foldl max f := e1
      have emin : info.min_mhz = fs.foldl min f := e2
      have einit : info.init_mhz = listMean ((f :: fs).take 10) := e3
      have edp : info.drop_pct = (if 0 < listMean ((f :: fs).take 10) then
          (1 - (fs.foldl min f) / listMean ((f :: fs).take 10)) * 100 else 0) := e4
      have htake : ((f :: fs).take 10) ≠ [] := by simp
      have hminle : fs.foldl min f ≤ listMean ((f :: fs).take 10) :=
        le_listMean htake
          (fun x hx => foldl_min_le_all f fs x (List.take_subset 10 (f :: fs) hx))
      have hmaxge : listMean ((f :: fs).take 10) ≤ fs.foldl max f :=
        listMean_le htake
          (fun x hx => all_le_foldl_max f fs x (List.take_subset 10 (f :: fs) hx))
      refine ⟨?_, ?_, ?_⟩
      · rw [emin, einit]
        exact hminle
      · rw [einit, emax]
        exact hmaxge
      · rw [edp]
        by_cases h0 : 0 < listMean ((f :: fs).take 10)
        · rw [if_pos h0]
          have hq : fs.foldl min f / listMean ((f :: fs).take 10) ≤ 1 :=
            (div_le_one h0).mpr hminle
          linarith
        · rw [if_neg h0]
  · exact absurd hi (by simp)

/-- Witness for C9 at `dfW`, core 0. -/
theorem detect_throttling_bounds_witness :
    detect_throttling dfW 0 = some infoW0 ∧
    (infoW0.min_mhz ≤ infoW0.init_mhz ∧ infoW0.init_mhz ≤ infoW0.max_mhz ∧
      0 ≤ infoW0.drop_pct) :=
  ⟨detect_dfW0, detect_throttling_bounds dfW 0 infoW0 detect_dfW0⟩

/-! ## Claim C3 -/

/-- C3: the affected-core set is chosen from the lowercased type string by
substring tests in fixed precedence: `cpufreq_0`/`cpufreq-0` gives cores
0-3, else `cpufreq_1`/`cpufreq-1` gives 4-5, else `cpufreq_2`/`cpufreq-2`
gives 6-7, else all eight cores. -/
theorem affectedCores_mapping (t : String) :
    ((strContains (strToLower t) "cpufreq_0" = true ∨
      strContains (strToLower t) "cpufreq-0" = true) →
        affectedCores t = [0, 1, 2, 3]) ∧
    (¬ (strContains (strToLower t) "cpufreq_0" = true ∨
        strContains (strToLower t) "cpufreq-0" = true) →
      (strContains (strToLower t) "cpufreq_1" = true ∨
       strContains (strToLower t) "cpufreq-1" = true) →
        affectedCores t = [4, 5]) ∧
    (¬ (strContains (strToLower t) "cpufreq_0" = true ∨
        strContains (strToLower t) "cpufreq-0" = true) →
      ¬ (strContains (strToLower t) "cpufreq_1" = true ∨
         strContains (strToLower t) "cpufreq-1" = true) →
      (strContains (strToLower t) "cpufreq_2" = true ∨
       strContains (strToLower t) "cpufreq-2" = true) →
        affectedCores t = [6, 7]) ∧
    (¬ (strContains (strToLower t) "cpufreq_0" = true ∨
        strContains (strToLower t) "cpufreq-0" = true) →
      ¬ (strContains (strToLower t) "cpufreq_1" = true ∨
         strContains (strToLower t) "cpufreq-1" = true) →
      ¬ (strContains (strToLower t) "cpufreq_2" = true ∨
         strContains (strToLower t) "cpufreq-2" = true) →
        affectedCores t = [0, 1, 2, 3, 4, 5, 6, 7]) := by
  refine ⟨?_, ?_, ?_, ?_⟩
  · intro h
    have hb : (strContains (strToLower t) "cpufreq_0" ||
        strContains (strToLower t) "cpufreq-0") = true := by
      rcases h with h | h <;> simp [h]
    simp only [affectedCores]
    rw [if_pos hb]
  · intro h0 h1
    have hb0 : ¬ ((strContains (strToLower t) "cpufreq_0" ||
        strContains (strToLower t) "cpufreq-0") = true) := by
      simpa only [Bool.or_eq_true] using h0
    have hb1 : (strContains (strToLower t) "cpufreq_1" ||
        strContains (strToLower t) "cpufreq-1") = true := by
      rcases h1 with h | h <;> simp [h]
    simp only [affectedCores]
    rw [if_neg hb0, if_pos hb1]
  · intro h0 h1 h2
    have hb0 : ¬ ((strContains (strToLower t) "cpufreq_0" ||
        strContains (strToLower t) "cpufreq-0") = true) := by
      simpa only [Bool.or_eq_true] using h0
    have hb1 : ¬ ((strContains (strToLower t) "cpufreq_1" ||
        strContains (strToLower t) "cpufreq-1") = true) := by
      simpa only [Bool.or_eq_true] using h1
    have hb2 : (strContains (strToLower t) "cpufreq_2" ||
        strContains (strToLower t) "cpufreq-2") = true := by
      rcases h2 with h | h <;> simp [h]
    simp only [affectedCores]
    rw [if_neg hb0, if_neg hb1, if_pos hb2]
  · intro h0 h1 h2
    have hb0 : ¬ ((strContains (strToLower t) "cpufreq_0" ||
        strContains (strToLower t) "cpufreq-0") = true) := by
      simpa only [Bool.or_eq_true] using h0
    have hb1 : ¬ ((strContains (strToLower t) "cpufreq_1" ||
        strContains (strToLower t) "cpufreq-1") = true) := by
      simpa only [Bool.or_eq_true] using h1
    have hb2 : ¬ ((strContains (strToLower t) "cpufreq_2" ||
        strContains (strToLower t) "cpufreq-2") = true) := by
      simpa only [Bool.or_eq_true] using h2
    simp only [affectedCores]
    rw [if_neg hb0, if_neg hb1, if_neg hb2]

/-- Witness for C3 on one type string of each precedence class. -/
theorem affectedCores_mapping_witness :
    affectedCores "thermal_cpufreq_0" = [0, 1, 2, 3] ∧
    affectedCores "thermal_cpufreq-1" = [4, 5] ∧
    affectedCores "CPUFREQ_2" = [6, 7] ∧
    affectedCores "gpu_devfreq" = [0, 1, 2, 3, 4, 5, 6, 7] :=
  ⟨(affectedCores_mapping "thermal_cpufreq_0").1 (Or.inl (by decide)),
   (affectedCores_mapping "thermal_cpufreq-1").2.1 (by decide) (Or.inr (by decide)),
   (affectedCores_mapping "CPUFREQ_2").2.2.1 (by decide) (by decide)
     (Or.inl (by decide)),
   (affectedCores_mapping "gpu_devfreq").2.2.2 (by decide) (by decide) (by decide)⟩

/-! ## Claim C10 -/

/-- C10: with at least one row in the table, the divisor `len(df)` of the
per-device throttle-time percentage and of the any-throttle duration is
nonzero, and each percentage times the row count recovers the raw count. -/
theorem summary_division_safe (df : DF) (meta : CoolingMeta)
    (h : 0 < df.nrows) :
    ((df.nrows : ℚ) ≠ 0) ∧
    throttle_time_pct df meta * (df.nrows : ℚ) =
      ((coolingVals df meta).countP (fun v => decide (0 < v)) : ℚ) * 100 ∧
    any_throttle_pct df * (df.nrows : ℚ) =
      ((anyThrottleVals df).countP (fun v => decide (0 < v)) : ℚ) * 100 := by
  have hne : (df.nrows : ℚ) ≠ 0 := by
    exact_mod_cast Nat.pos_iff_ne_zero.mp h
  refine ⟨hne, ?_, ?_⟩
  · unfold throttle_time_pct
    field_simp
  · unfold any_throttle_pct
    field_simp

/-- Witness for C10 at `dfW` (3 rows). -/
theorem summary_division_safe_witness :
    0 < dfW.nrows ∧
    ((dfW.nrows : ℚ) ≠ 0) ∧
    throttle_time_pct dfW metaW * (dfW.nrows : ℚ) =
      ((coolingVals dfW metaW).countP (fun v => decide (0 < v)) : ℚ) * 100 ∧
    any_throttle_pct dfW * (dfW.nrows : ℚ) =
      ((anyThrottleVals dfW).countP (fun v => decide (0 < v)) : ℚ) * 100 :=
  ⟨by decide, (summary_division_safe dfW metaW (by decide)).1,
   (summary_division_safe dfW metaW (by decide)).2.1,
   (summary_division_safe dfW metaW (by decide)).2.2⟩

/-! ## Claim C7 -/

lemma find?_map_replace (cols : List (String × List Cell)) (name : String)
    (v : List Cell) (h : cols.any (fun p => p.1 == name) = true) :
    (cols.map (fun p => if p.1 == name then (name, v) else p)).find?
      (fun p => p.1 == name) = some (name, v) := by
  induction cols with
  | nil => simp at h
  | cons p ps ih =>
    by_cases hp : (p.1 == name) = true
    · simp only [List.map_cons, if_pos hp]
      rw [List.find?_cons_of_pos _ (by simp)]
    · simp only [List.map_cons, if_neg hp]
      rw [List.find?_cons_of_neg _ (by simpa using hp)]
      apply ih
      simpa [hp] using h

lemma find?_append_self (cols : List (String × List Cell)) (name : String)
    (v : List Cell) (h : cols.any (fun p => p.1 == name) = false) :
    (cols ++ [(name, v)]).find? (fun p => p.1 == name) = some (name, v) := by
  induction cols with
  | nil =>
    simp only [List.nil_append]
    rw [List.find?_cons_of_pos _ (by simp)]
  | cons p ps ih =>
    simp only [List.any_cons, Bool.or_eq_false_iff] at h
    simp only [List.cons_append]
    rw [List.find?_cons_of_neg _ (by simp [h.1])]
    exact ih h.2

lemma find?_setCol (cols : List (String × List Cell)) (name : String)
    (v : List Cell) :
    (setCol cols name v).find? (fun p => p.1 == name) = some (name, v) := by
  unfold setCol
  split
  · apply find?_map_replace
    assumption
  · apply find?_append_self
    rename_i h
    exact (Bool.not_eq_true _) ▸ h

/-- A `String.toList` distributes over append (used to split column names). -/
lemma strToList_append (a b : String) : (a ++ b).toList = a.toList ++ b.toList :=
  String.data_append a b

/-- C7: the loader fails on a missing/unreadable file and on a table without
an `elapsed_sec` column; otherwise it returns the parsed table — lines whose
first character is `#` are skipped as comments — extended with the derived
column `elapsed_min = elapsed_sec / 60`. -/
theorem load_csv_spec (file : Option (List String)) :
    (file = none → ∃ e, load_csv file = Except.error e) ∧
    (∀ lines, file = some lines →
      lookupCol (parseTable (preprocess lines)) "elapsed_sec" = none →
      ∃ e, load_csv file = Except.error e) ∧
    (∀ lines esec, file = some lines →
      lookupCol (parseTable (preprocess lines)) "elapsed_sec" = some esec →
      ∃ dfo, load_csv file = Except.ok dfo ∧
        dfo.nrows = (parseTable (preprocess lines)).nrows ∧
        dfo.cols = setCol (parseTable (preprocess lines)).cols "elapsed_min"
          (esec.map (fun o => o.map (fun x => x / 60))) ∧
        lookupCol dfo "elapsed_min" =
          some (esec.map (fun o => o.map (fun x => x / 60)))) ∧
    (∀ pre l post, l.toList.head? = some '#' →
      load_csv (some (pre ++ l :: post)) = load_csv (some (pre ++ post))) := by
  refine ⟨?_, ?_, ?_, ?_⟩
  · rintro rfl
    exact ⟨_, rfl⟩
  · rintro lines rfl hnone
    simp only [load_csv]
    rw [hnone]
    exact ⟨_, rfl⟩
  · rintro lines esec rfl hsome
    refine ⟨⟨(parseTable (preprocess lines)).nrows,
      setCol (parseTable (preprocess lines)).cols "elapsed_min"
        (esec.map (fun o => o.map (fun x => x / 60)))⟩, ?_, rfl, rfl, ?_⟩
    · simp only [load_csv]
      rw [hsome]
    · unfold lookupCol
      rw [find?_setCol]
      rfl
  · rintro pre l post hl
    have hstrip : stripComment l = "" := by
      unfold stripComment
      cases hlt : l.toList with
      | nil => rw [hlt] at hl; simp at hl
      | cons c t =>
        rw [hlt] at hl
        simp only [List.head?] at hl
        have hc : c = '#' := Option.some.inj hl
        subst hc
        simp [List.takeWhile_cons]
    have hpp : preprocess (pre ++ l :: post) = preprocess (pre ++ post) := by
      unfold preprocess
      rw [List.map_append, List.map_append, List.map_cons,
        List.filter_append, List.filter_append, List.filter_cons, hstrip]
      simp
    simp only [load_csv, hpp]

/-- Witness for C7: a missing file, a table without `elapsed_sec`, a good
table with a comment line, and comment-line invariance. -/
theorem load_csv_spec_witness :
    (∃ e, load_csv none = Except.error e) ∧
    lookupCol (parseTable (preprocess ["a,b", "1,2"])) "elapsed_sec" = none ∧
    (∃ e, load_csv (some ["a,b", "1,2"]) = Except.error e) ∧
    lookupCol (parseTable (preprocess
        ["# comment", "elapsed_sec,cpu0_freq_mhz", "0,1800", "60,900"]))
      "elapsed_sec" = some [some 0, some 60] ∧
    (∃ dfo, load_csv (some
        ["# comment", "elapsed_sec,cpu0_freq_mhz", "0,1800", "60,900"]) =
          Except.ok dfo ∧
      dfo.nrows = (parseTable (preprocess
        ["# comment", "elapsed_sec,cpu0_freq_mhz", "0,1800", "60,900"])).nrows ∧
      dfo.cols = setCol (parseTable (preprocess
          ["# comment", "elapsed_sec,cpu0_freq_mhz", "0,1800", "60,900"])).cols
        "elapsed_min"
        (([some 0, some 60] : List Cell).map (fun o => o.map (fun x => x / 60))) ∧
      lookupCol dfo "elapsed_min" =
        some (([some 0, some 60] : List Cell).map
          (fun o => o.map (fun x => x / 60)))) ∧
    ("# comment".toList.head? = some '#') ∧
    load_csv (some ([] ++ "# comment" :: ["elapsed_sec,a"])) =
      load_csv (some ([] ++ ["elapsed_sec,a"])) :=
  ⟨(load_csv_spec none).1 rfl,
   by decide,
   (load_csv_spec (some ["a,b", "1,2"])).2.1 _ rfl (by decide),
   by decide,
   (load_csv_spec (some
       ["# comment", "elapsed_sec,cpu0_freq_mhz", "0,1800", "60,900"])).2.2.1
     _ [some 0, some 60] rfl (by decide),
   by decide,
   (load_csv_spec none).2.2.2 [] "# comment" ["elapsed_sec,a"] (by decide)⟩

/-! ## Claim C8 -/

lemma isPrefixOf_eq_true_iff {l₁ l₂ : List Char} :
    l₁.isPrefixOf l₂ = true ↔ l₁ <+: l₂ :=
  List.isPrefixOf_iff_prefix


lemma replaceAllAux_no_occ (p : Char) (ps rep : List Char) :
    ∀ l : List Char, ¬ ((p :: ps) <:+: l) → replaceAllAux p ps rep l = l := by
  intro l
  induction l with
  | nil =>
    intro _
    unfold replaceAllAux
    rfl
  | cons c rest ih =>
    intro h
    unfold replaceAllAux
    rw [if_neg (fun hb => h (isPrefixOf_eq_true_iff.mp hb).isInfix)]
    rw [ih (fun hinf => h (hinf.trans (List.suffix_cons c rest).isInfix))]

lemma replaceAllAux_left (p : Char) (ps rep l : List Char)
    (h : ¬ ((p :: ps) <:+: l)) :
    replaceAllAux p ps rep ((p :: ps) ++ l) = rep ++ l := by
  show replaceAllAux p ps rep (p :: (ps ++ l)) = rep ++ l
  unfold replaceAllAux
  rw [if_pos (isPrefixOf_eq_true_iff.mpr ⟨l, by simp⟩)]
  rw [List.drop_left ps l]
  rw [replaceAllAux_no_occ p ps rep l h]

lemma replaceAllAux_right (p : Char) (ps rep : List Char) :
    ∀ m : List Char, ¬ ((p :: ps) <:+: (m ++ (p :: ps).dropLast)) →
      replaceAllAux p ps rep (m ++ (p :: ps)) = m ++ rep := by
  intro m
  induction m with
  | nil =>
    intro _
    simp only [List.nil_append]
    unfold replaceAllAux
    rw [if_pos (isPrefixOf_eq_true_iff.mpr ⟨[], by simp⟩)]
    rw [List.drop_length]
    have h0 : replaceAllAux p ps rep [] = [] := by
      unfold replaceAllAux
      rfl
    rw [h0, List.append_nil]
  | cons c m' ih =>
    intro h
    rw [List.cons_append]
    have hnp : ¬ ((p :: ps).isPrefixOf (c :: (m' ++ (p :: ps))) = true) := by
      intro hb
      apply h
      have hpre : (p :: ps) <+: ((c :: m') ++ (p :: ps)) := by
        rw [List.cons_append]
        exact isPrefixOf_eq_true_iff.mp hb
      have hpre2 : ((c :: m') ++ (p :: ps).dropLast) <+:
          ((c :: m') ++ (p :: ps)) := by
        refine ⟨[(p :: ps).getLast (by simp)], ?_⟩
        rw [List.append_assoc, List.dropLast_append_getLast]
      have hlen : (p :: ps).length ≤
          ((c :: m') ++ (p :: ps).dropLast).length := by
        simp only [List.length_append, List.length_cons, List.length_dropLast]
        omega
      exact (List.prefix_of_prefix_length_le hpre hpre2 hlen).isInfix
    unfold replaceAllAux
    rw [if_neg hnp]
    have hih : replaceAllAux p ps rep (m' ++ (p :: ps)) = m' ++ rep := by
      apply ih
      intro hinf
      apply h
      rw [List.cons_append]
      exact hinf.trans
        (List.suffix_cons c (m' ++ (p :: ps).dropLast)).isInfix
    rw [hih]
    exact (List.cons_append c m' rep).symm

lemma replaceAllAux_single (a b : Char) :
    ∀ l : List Char, replaceAllAux a [] [b] l =
      l.map (fun c => if c = a then b else c) := by
  intro l
  induction l with
  | nil =>
    unfold replaceAllAux
    rfl
  | cons c rest ih =>
    unfold replaceAllAux
    by_cases hc : c = a
    · subst hc
      rw [if_pos (by simp [List.isPrefixOf])]
      simp only [List.length_nil, List.drop_zero]
      rw [ih]
      simp
    · have hneg : ¬ (([a].isPrefixOf (c :: rest)) = true) := by
        simp only [List.isPrefixOf, Bool.and_true, beq_iff_eq]
        exact fun hh => hc hh.symm
      rw [if_neg hneg]
      rw [ih]
      simp [hc]

/-- C8 counterexample: for the temperature column `temp_big_core_C`, the
label printed by the summary keeps the underscore (`big_core`), while the
claim demands affix stripping with underscores turned to spaces
(`big core`). -/
theorem temp_label_claim_counterexample :
    isTempCol "temp_big_core_C" = true ∧
    summaryTempLabel "temp_big_core_C" ≠ specTempLabel "temp_big_core_C" := by
  constructor
  · decide
  · have h1 : summaryTempLabel "temp_big_core_C" = "big_core" := by
      simp [summaryTempLabel, pyReplace, replaceAllAux, List.isPrefixOf]
    have h2 : specTempLabel "temp_big_core_C" = "big core" := by decide
    rw [h1, h2]
    decide

/-- C8 (amended): for a temperature column `temp_<mid>_C` whose interior
gives no further occurrence of the affix substrings (no `temp_` occurs in
`mid ++ "_C"` and no `_C` occurs in `mid`), the plot label is the name with
the affixes stripped and underscores turned to spaces, while the summary
label is the stripped name with underscores kept. -/
theorem temp_label_corrected (mid : String)
    (h1 : ¬ (['t', 'e', 'm', 'p', '_'] <:+: (mid.toList ++ ['_', 'C'])))
    (h2 : ¬ (['_', 'C'] <:+: mid.toList)) :
    summaryTempLabel ("temp_" ++ mid ++ "_C") = mid ∧
    plotTempLabel ("temp_" ++ mid ++ "_C") =
      String.mk (mid.toList.map (fun c => if c = '_' then ' ' else c)) := by
  have hct : ("temp_" ++ mid ++ "_C").toList =
      ['t', 'e', 'm', 'p', '_'] ++ (mid.toList ++ ['_', 'C']) := by
    rw [strToList_append, strToList_append, List.append_assoc]
    rfl
  have s1 : pyReplace ("temp_" ++ mid ++ "_C") "temp_" "" =
      String.mk (mid.toList ++ ['_', 'C']) := by
    show String.mk (replaceAllAux 't' ['e', 'm', 'p', '_'] "".toList
      ("temp_" ++ mid ++ "_C").toList) = _
    rw [hct]
    rw [show ("" : String).toList = [] from rfl]
    rw [replaceAllAux_left 't' ['e', 'm', 'p', '_'] [] (mid.toList ++ ['_', 'C']) h1]
    rw [List.nil_append]
  have hno : ¬ (['_', 'C'] <:+:
      (mid.toList ++ (('_' :: ['C']) : List Char).dropLast)) := by
    rw [show ((('_' :: ['C']) : List Char).dropLast) = ['_'] from rfl]
    intro hinf
    rcases hinf with ⟨s, t, hst⟩
    rcases List.eq_nil_or_concat t with rfl | ⟨t', x, rfl⟩
    · rw [List.append_nil] at hst
      have hlast := congrArg List.getLast? hst
      rw [show (s ++ ['_', 'C']) = (s ++ ['_']) ++ ['C'] by simp,
        List.getLast?_concat, List.getLast?_concat] at hlast
      exact absurd (Option.some.inj hlast) (by decide)
    · rw [List.concat_eq_append] at hst
      have hst' : (s ++ ['_', 'C'] ++ t') ++ [x] = mid.toList ++ ['_'] := by
        rw [← hst]
        simp [List.append_assoc]
      have hmid := (List.append_inj' hst' rfl).1
      exact h2 ⟨s, t', hmid⟩
  have s2 : pyReplace (String.mk (mid.toList ++ ['_', 'C'])) "_C" "" = mid := by
    show String.mk (replaceAllAux '_' ['C'] "".toList
      (String.mk (mid.toList ++ ['_', 'C'])).toList) = mid
    rw [show (String.mk (mid.toList ++ ['_', 'C'])).toList =
      mid.toList ++ ['_', 'C'] from rfl]
    rw [show ("" : String).toList = [] from rfl]
    rw [replaceAllAux_right '_' ['C'] [] mid.toList hno]
    rw [List.append_nil]
    rfl
  constructor
  · show pyReplace (pyReplace ("temp_" ++ mid ++ "_C") "temp_" "") "_C" "" = mid
    rw [s1, s2]
  · show pyReplace
      (pyReplace (pyReplace ("temp_" ++ mid ++ "_C") "temp_" "") "_C" "") "_" " " = _
    rw [s1, s2]
    show String.mk (replaceAllAux '_' [] " ".toList mid.toList) = _
    rw [show (" " : String).toList = [' '] from rfl]
    rw [replaceAllAux_single '_' ' ' mid.toList]

/-- Witness for the amended C8 at the realistic column `temp_big_core_C`. -/
theorem temp_label_corrected_witness :
    (¬ (['t', 'e', 'm', 'p', '_'] <:+: ("big_core".toList ++ ['_', 'C']))) ∧
    (¬ (['_', 'C'] <:+: "big_core".toList)) ∧
    summaryTempLabel ("temp_" ++ "big_core" ++ "_C") = "big_core" ∧
    plotTempLabel ("temp_" ++ "big_core" ++ "_C") =
      String.mk ("big_core".toList.map (fun c => if c = '_' then ' ' else c)) :=
  ⟨by decide, by decide,
   (temp_label_corrected "big_core" (by decide) (by decide)).1,
   (temp_label_corrected "big_core" (by decide) (by decide)).2⟩
